import Mathlib

/-!
Verification of the clipboard-manager register store (src/backend.rs).

The store is a `HashMap<String, ClipboardRegister>` mirrored to a JSON file
on every mutation, wrapped by a mutex-guarded `ClipboardManager` and exposed
through a C FFI surface.  We embed it shallowly:

* the hash map becomes an association list `List (String × ClipboardRegister)`
  with the map invariant (no duplicate keys) stated separately;
* the file system becomes an explicit `Option FileContents` value threaded
  through the mutating operations, where `FileContents` is what the
  serde_json text layer sees: `.ok j` is a syntactically valid JSON document
  denoting the value `j`, `.error e` is malformed text the JSON parser
  rejects with message `e`;
* the outcome of `fs::write` / `fs::read_to_string` is an explicit
  `WriteResult` / `ReadResult` parameter, since the code branches on it;
* serde_json's derived `Serialize`/`Deserialize` for the two structs is
  modelled by `toJson`/`fromJson` functions over a JSON value type, with
  serde's documented semantics (unknown struct fields ignored, duplicate
  struct fields rejected, missing fields rejected, map entries inserted in
  order with last-wins on duplicate keys);
* for the FFI string marshaling, serde_json's `to_string` output text is
  modelled character-exactly (including its escaping rules), because
  `CString::new` branches on interior NUL bytes of that text.
-/

/-- A JSON value, as produced/consumed by the serde_json layer. -/
inductive Json : Type
  | null : Json
  | bool (b : Bool) : Json
  | num (n : Int) : Json
  | str (s : String) : Json
  | arr (elems : List Json) : Json
  | obj (fields : List (String × Json)) : Json

/-- `ClipboardRegister` from src/backend.rs: content plus shortcut. -/
structure ClipboardRegister where
  content : String
  shortcut : String
deriving DecidableEq

/-- `ClipboardState` from src/backend.rs: the name → register map,
embedded as an association list. -/
structure ClipboardState where
  registers : List (String × ClipboardRegister)
deriving DecidableEq

/-- `HashMap::get` on the association-list embedding: first binding wins
(the map invariant makes the choice irrelevant). -/
def hmGet {α : Type} : List (String × α) → String → Option α
  | [], _ => none
  | p :: rest, k => if p.1 == k then some p.2 else hmGet rest k

/-- `HashMap::contains_key`. -/
def hmContains {α : Type} (m : List (String × α)) (k : String) : Bool :=
  (hmGet m k).isSome

/-- `HashMap::insert`: bind `k` to `v`, dropping any previous binding. -/
def hmInsert {α : Type} (m : List (String × α)) (k : String) (v : α) :
    List (String × α) :=
  (k, v) :: m.filter (fun p => p.1 != k)

/-- In-place update of the value bound to `k` (the effect of writing
through `HashMap::get_mut`). -/
def hmSet {α : Type} (m : List (String × α)) (k : String) (v : α) :
    List (String × α) :=
  m.map (fun p => if p.1 == k then (p.1, v) else p)

/-- `HashMap::remove`, as the resulting map. -/
def hmRemove {α : Type} (m : List (String × α)) (k : String) :
    List (String × α) :=
  m.filter (fun p => p.1 != k)

/-- The map invariant of `ClipboardState`: at most one register per name. -/
def NodupKeys (s : ClipboardState) : Prop :=
  (s.registers.map Prod.fst).Nodup

/-- What the serde_json text layer sees in the persisted file: `.ok j` is
well-formed JSON text denoting `j`; `.error e` is malformed text. -/
abbrev FileContents := Except String Json

/-- The persisted file: absent, or holding some contents. -/
abbrev Disk := Option FileContents

/-- Outcome of the `fs::write` call inside `save_to_disk`. -/
inductive WriteResult : Type
  | success : WriteResult
  | failure (e : String) : WriteResult

/-- I/O error kinds `fs::read_to_string` can produce; the code matches
`Err(_)`, so the kind is never inspected. -/
inductive IoError : Type
  | notFound : IoError
  | permissionDenied : IoError
  | other (msg : String) : IoError

/-- Outcome of the `fs::read_to_string` call inside `load_from_disk`. -/
inductive ReadResult : Type
  | ok (contents : FileContents) : ReadResult
  | err (e : IoError) : ReadResult

/-- serde `Serialize` (derived) for `ClipboardRegister`. -/
def ClipboardRegister.toJson (r : ClipboardRegister) : Json :=
  .obj [("content", .str r.content), ("shortcut", .str r.shortcut)]

/-- serde `Serialize` (derived) for `ClipboardState`. -/
def ClipboardState.toJson (s : ClipboardState) : Json :=
  .obj [("registers", .obj (s.registers.map (fun p => (p.1, p.2.toJson))))]

/-- Field loop of serde's derived `Deserialize` for `ClipboardRegister`:
walks the object's fields, rejecting duplicates and wrong types, ignoring
unknown fields, and requiring both `content` and `shortcut`. -/
def regFromFields : List (String × Json) → Option String → Option String →
    Except String ClipboardRegister
  | [], some c, some sc => .ok ⟨c, sc⟩
  | [], none, _ => .error "missing field content"
  | [], some _, none => .error "missing field shortcut"
  | (k, v) :: rest, co, sh =>
    if k == "content" then
      match co with
      | some _ => .error "duplicate field content"
      | none =>
        match v with
        | .str s => regFromFields rest (some s) sh
        | _ => .error "invalid type for field content"
    else if k == "shortcut" then
      match sh with
      | some _ => .error "duplicate field shortcut"
      | none =>
        match v with
        | .str s => regFromFields rest co (some s)
        | _ => .error "invalid type for field shortcut"
    else
      regFromFields rest co sh

/-- serde `Deserialize` (derived) for `ClipboardRegister`. -/
def ClipboardRegister.fromJson : Json → Except String ClipboardRegister
  | .obj fields => regFromFields fields none none
  | _ => .error "invalid type: expected struct ClipboardRegister"

/-- Entry loop of serde's `Deserialize` for
`HashMap<String, ClipboardRegister>`: entries are inserted in order, so a
duplicate key silently overwrites (last one wins). -/
def parseRegEntries : List (String × Json) →
    List (String × ClipboardRegister) →
    Except String (List (String × ClipboardRegister))
  | [], acc => .ok acc
  | (k, v) :: rest, acc =>
    match ClipboardRegister.fromJson v with
    | .ok r => parseRegEntries rest (hmInsert acc k r)
    | .error e => .error e

/-- serde `Deserialize` for the register map. -/
def parseRegMap : Json → Except String (List (String × ClipboardRegister))
  | .obj fields => parseRegEntries fields []
  | _ => .error "invalid type: expected a map"

/-- Field loop of serde's derived `Deserialize` for `ClipboardState`. -/
def stateFromFields : List (String × Json) →
    Option (List (String × ClipboardRegister)) → Except String ClipboardState
  | [], some regs => .ok ⟨regs⟩
  | [], none => .error "missing field registers"
  | (k, v) :: rest, acc =>
    if k == "registers" then
      match acc with
      | some _ => .error "duplicate field registers"
      | none =>
        match parseRegMap v with
        | .ok regs => stateFromFields rest (some regs)
        | .error e => .error e
    else
      stateFromFields rest acc

/-- serde `Deserialize` (derived) for `ClipboardState`. -/
def ClipboardState.fromJson : Json → Except String ClipboardState
  | .obj fields => stateFromFields fields none
  | _ => .error "invalid type: expected struct ClipboardState"

/-- `serde_json::from_str::<ClipboardState>`: fails on malformed text, else
deserializes the JSON value. -/
def serde_from_str : FileContents → Except String ClipboardState
  | .ok j => ClipboardState.fromJson j
  | .error e => .error e

/-- `serde_json::to_string_pretty(&ClipboardState)`: total for these types
(the `Err` branch of the caller is defensive dead code). -/
def serde_to_string_pretty (s : ClipboardState) : Except String Json :=
  .ok s.toJson

/-- `ClipboardState::new`. -/
def ClipboardState.new : ClipboardState := ⟨[]⟩

/-- `ClipboardState::save_to_disk`: serialize, then overwrite the file;
returns the write error without touching the disk if `fs::write` fails. -/
def ClipboardState.save_to_disk (s : ClipboardState) (d : Disk)
    (w : WriteResult) : Except String Unit × Disk :=
  match serde_to_string_pretty s with
  | .ok j =>
    match w with
    | .success => (.ok (), some (.ok j))
    | .failure e => (.error ("Failed to write config: " ++ e), d)
  | .error e => (.error ("Failed to serialize config: " ++ e), d)

/-- `ClipboardState::load_from_disk`: a read error of any kind yields a
fresh empty state; parse failure is reported with a description. -/
def ClipboardState.load_from_disk (r : ReadResult) :
    Except String ClipboardState :=
  match r with
  | .ok contents =>
    match serde_from_str contents with
    | .ok state => .ok state
    | .error e => .error ("Failed to parse config: " ++ e)
  | .err _ => .ok ClipboardState.new

/-- `ClipboardState::add_register`: fails if the name exists; else inserts
an empty-content register and saves (the save error is only logged). -/
def ClipboardState.add_register (s : ClipboardState) (name shortcut : String)
    (d : Disk) (w : WriteResult) : Bool × ClipboardState × Disk :=
  if hmContains s.registers name then
    (false, s, d)
  else
    let s' : ClipboardState := ⟨hmInsert s.registers name ⟨"", shortcut⟩⟩
    let r := s'.save_to_disk d w
    (true, s', r.2)

/-- `ClipboardState::update_register_content`: replaces the content of an
existing register and saves; fails if the name is absent. -/
def ClipboardState.update_register_content (s : ClipboardState)
    (name content : String) (d : Disk) (w : WriteResult) :
    Bool × ClipboardState × Disk :=
  match hmGet s.registers name with
  | some reg =>
    let s' : ClipboardState :=
      ⟨hmSet s.registers name ⟨content, reg.shortcut⟩⟩
    let r := s'.save_to_disk d w
    (true, s', r.2)
  | none => (false, s, d)

/-- `ClipboardState::get_register_content`: read-only lookup. -/
def ClipboardState.get_register_content (s : ClipboardState) (name : String) :
    Option String :=
  (hmGet s.registers name).map (fun r => r.content)

/-- `ClipboardState::remove_register`: deletes an existing register and
saves; fails if the name is absent. -/
def ClipboardState.remove_register (s : ClipboardState) (name : String)
    (d : Disk) (w : WriteResult) : Bool × ClipboardState × Disk :=
  if (hmGet s.registers name).isSome then
    let s' : ClipboardState := ⟨hmRemove s.registers name⟩
    let r := s'.save_to_disk d w
    (true, s', r.2)
  else
    (false, s, d)

/-- `ClipboardState::update_shortcut`: replaces the shortcut of an existing
register and saves; fails if the name is absent. -/
def ClipboardState.update_shortcut (s : ClipboardState)
    (name shortcut : String) (d : Disk) (w : WriteResult) :
    Bool × ClipboardState × Disk :=
  match hmGet s.registers name with
  | some reg =>
    let s' : ClipboardState :=
      ⟨hmSet s.registers name ⟨reg.content, shortcut⟩⟩
    let r := s'.save_to_disk d w
    (true, s', r.2)
  | none => (false, s, d)

/-- `ClipboardState::get_all_registers`: snapshot of all (name, register)
pairs, order unspecified. -/
def ClipboardState.get_all_registers (s : ClipboardState) :
    List (String × ClipboardRegister) :=
  s.registers

/-- `ClipboardManager::new`: load from disk, falling back to an empty state
on a load error (the error is only logged). -/
def ClipboardManager.new (r : ReadResult) : ClipboardState :=
  match ClipboardState.load_from_disk r with
  | .ok state => state
  | .error _ => ClipboardState.new

/-- `ClipboardManager::get_register_content` (the mutex is invisible in the
sequential embedding). -/
def ClipboardManager.get_register_content (s : ClipboardState)
    (name : String) : Option String :=
  s.get_register_content name

/-- One hexadecimal digit of serde_json's `\u00XX` escapes (lowercase). -/
def hexDigit (n : Nat) : Char :=
  if n < 10 then Char.ofNat (48 + n) else Char.ofNat (87 + n)

/-- serde_json's escaping of one character inside a JSON string literal:
quote and backslash get a backslash escape, control characters get the
short escapes or `\u00XX`, everything else passes through. -/
def escapeChar (c : Char) : String :=
  if c = Char.ofNat 34 then "\\\""
  else if c = Char.ofNat 92 then "\\\\"
  else if c.toNat < 32 then
    if c.toNat = 8 then "\\b"
    else if c.toNat = 9 then "\\t"
    else if c.toNat = 10 then "\\n"
    else if c.toNat = 12 then "\\f"
    else if c.toNat = 13 then "\\r"
    else
      "\\u00" ++ String.singleton (hexDigit (c.toNat / 16)) ++
        String.singleton (hexDigit (c.toNat % 16))
  else String.singleton c

/-- serde_json's escaping of a character sequence. -/
def escapeChars : List Char → String
  | [] => ""
  | c :: cs => escapeChar c ++ escapeChars cs

/-- serde_json's rendering of a string value, quotes included. -/
def escapeString (s : String) : String :=
  "\"" ++ escapeChars s.data ++ "\""

/-- serde_json's compact rendering of one `(String, ClipboardRegister)`
tuple: a two-element array of the name and the register object. -/
def renderPair (p : String × ClipboardRegister) : String :=
  "[" ++ escapeString p.1 ++ ",\x7b\"content\":" ++
    escapeString p.2.content ++ ",\"shortcut\":" ++
    escapeString p.2.shortcut ++ "\x7d]"

/-- Comma-separated rendering of the vector elements. -/
def renderPairList : List (String × ClipboardRegister) → String
  | [] => ""
  | [p] => renderPair p
  | p :: q :: rest => renderPair p ++ "," ++ renderPairList (q :: rest)

/-- serde_json's compact rendering of `Vec<(String, ClipboardRegister)>`. -/
def renderPairs (l : List (String × ClipboardRegister)) : String :=
  "[" ++ renderPairList l ++ "]"

/-- `serde_json::to_string(&Vec<(String, ClipboardRegister)>)`: total for
these types (the caller's `Err` branch is defensive dead code). -/
def serde_to_string_pairs (l : List (String × ClipboardRegister)) :
    Except String String :=
  .ok (renderPairs l)

/-- `ClipboardManager::get_all_registers`: JSON text of the register list,
falling back to the literal empty array on a serialization error. -/
def ClipboardManager.get_all_registers (s : ClipboardState) : String :=
  match serde_to_string_pairs s.get_all_registers with
  | .ok json => json
  | .error _ => "[]"

/-- `CString::new`: `none` models the `NulError` on an interior NUL byte,
`some` the successfully built C string. -/
def cstring_new (s : String) : Option String :=
  if s.data.any (fun c => c.toNat == 0) then none else some s

/-- FFI entry point `clipboard_manager_get_register_content`: `none`
models the null pointer return. -/
def clipboard_manager_get_register_content (s : ClipboardState)
    (name : String) : Option String :=
  match ClipboardManager.get_register_content s name with
  | some content => cstring_new content
  | none => none

/-- FFI entry point `clipboard_manager_get_all_registers`: `none` models
the null pointer return from a failed `CString::new`. -/
def clipboard_manager_get_all_registers (s : ClipboardState) :
    Option String :=
  cstring_new (ClipboardManager.get_all_registers s)

/-! Helper lemmas about the association-list map operations. -/

theorem hmGet_hmInsert_self {α : Type} (m : List (String × α)) (k : String)
    (v : α) : hmGet (hmInsert m k v) k = some v := by
  simp [hmInsert, hmGet]

theorem hmGet_hmRemove_self {α : Type} (m : List (String × α)) (k : String) :
    hmGet (hmRemove m k) k = none := by
  induction m with
  | nil => rfl
  | cons p rest ih =>
    by_cases h : p.1 = k
    · simpa [hmRemove, h] using ih
    · simpa [hmRemove, hmGet, h] using ih

theorem hmFilter_eq_of_not_mem {α : Type} (m : List (String × α))
    (k : String) (h : k ∉ m.map Prod.fst) :
    m.filter (fun p => p.1 != k) = m := by
  apply List.filter_eq_self.mpr
  intro p hp
  simp only [bne_iff_ne, ne_eq, decide_eq_true_eq]
  intro hk
  exact h (List.mem_map.mpr ⟨p, hp, hk⟩)

theorem nodup_keys_filter {α : Type} (m : List (String × α))
    (pred : String × α → Bool) (h : (m.map Prod.fst).Nodup) :
    ((m.filter pred).map Prod.fst).Nodup :=
  List.Nodup.sublist (List.Sublist.map Prod.fst (List.filter_sublist m)) h

theorem hmInsert_nodup {α : Type} (m : List (String × α)) (k : String)
    (v : α) (h : (m.map Prod.fst).Nodup) :
    ((hmInsert m k v).map Prod.fst).Nodup := by
  simp only [hmInsert, List.map_cons, List.nodup_cons]
  constructor
  · intro hk
    rcases List.mem_map.mp hk with ⟨p, hp, hpk⟩
    rcases List.mem_filter.mp hp with ⟨_, hne⟩
    exact (bne_iff_ne.mp hne) hpk
  · exact nodup_keys_filter m _ h

theorem hmSet_map_fst {α : Type} (m : List (String × α)) (k : String)
    (v : α) : (hmSet m k v).map Prod.fst = m.map Prod.fst := by
  unfold hmSet
  induction m with
  | nil => rfl
  | cons p rest ih =>
    simp only [List.map_cons, ih]
    by_cases h : p.1 == k <;> simp [h]

/-! Claim theorems. -/

/-- C1: adding a name that is already present returns `false` and leaves
the store and the disk completely unchanged. -/
theorem add_register_existing_fails (s : ClipboardState)
    (name shortcut : String) (d : Disk) (w : WriteResult)
    (h : hmContains s.registers name = true) :
    s.add_register name shortcut d w = (false, s, d) := by
  simp [ClipboardState.add_register, h]

/-- C1 witness: a concrete store where the name already exists. -/
theorem add_register_existing_fails_witness :
    ClipboardState.add_register ⟨[("a", ⟨"x", "s1"⟩)]⟩ "a" "s2" none
        WriteResult.success = (false, ⟨[("a", ⟨"x", "s1"⟩)]⟩, none) :=
  add_register_existing_fails ⟨[("a", ⟨"x", "s1"⟩)]⟩ "a" "s2" none
    WriteResult.success (by decide)

/-- C2: adding a fresh name returns `true`, and the new register has empty
content (so a following `get_register_content` returns `""`) and the given
shortcut. -/
theorem add_register_fresh_succeeds (s : ClipboardState)
    (name shortcut : String) (d : Disk) (w : WriteResult)
    (h : hmContains s.registers name = false) :
    (s.add_register name shortcut d w).1 = true ∧
    (s.add_register name shortcut d w).2.1.get_register_content name =
      some "" ∧
    hmGet (s.add_register name shortcut d w).2.1.registers name =
      some ⟨"", shortcut⟩ := by
  refine ⟨?_, ?_, ?_⟩ <;>
    simp [ClipboardState.add_register, h, ClipboardState.get_register_content,
      hmGet_hmInsert_self]

/-- C2 witness: adding to the empty store. -/
theorem add_register_fresh_succeeds_witness :
    (ClipboardState.new.add_register "clip1" "cmd+1" none
        WriteResult.success).1 = true ∧
    (ClipboardState.new.add_register "clip1" "cmd+1" none
        WriteResult.success).2.1.get_register_content "clip1" = some "" ∧
    hmGet (ClipboardState.new.add_register "clip1" "cmd+1" none
        WriteResult.success).2.1.registers "clip1" = some ⟨"", "cmd+1"⟩ :=
  add_register_fresh_succeeds ClipboardState.new "clip1" "cmd+1" none
    WriteResult.success (by decide)

/-- C3: update_content, update_shortcut and remove on an absent name each
return `false` and leave store and disk unchanged, and a remove that just
succeeded cannot succeed again for the same name. -/
theorem absent_name_ops_fail (s : ClipboardState)
    (name content shortcut : String) (d : Disk) (w : WriteResult)
    (h : hmGet s.registers name = none) :
    s.update_register_content name content d w = (false, s, d) ∧
    s.update_shortcut name shortcut d w = (false, s, d) ∧
    s.remove_register name d w = (false, s, d) ∧
    (∀ (t : ClipboardState) (d2 w2 d3 w3),
      (t.remove_register name d2 w2).1 = true →
      ((t.remove_register name d2 w2).2.1.remove_register name d3 w3).1 =
        false) := by
  refine ⟨?_, ?_, ?_, ?_⟩
  · simp [ClipboardState.update_register_content, h]
  · simp [ClipboardState.update_shortcut, h]
  · simp [ClipboardState.remove_register, h]
  · intro t d2 w2 d3 w3 hfst
    by_cases ht : (hmGet t.registers name).isSome
    · simp only [ClipboardState.remove_register, ht, if_true]
      simp [hmGet_hmRemove_self]
    · simp [ClipboardState.remove_register, ht] at hfst

/-- C3 witness: concrete absent name, and a concrete remove-then-remove. -/
theorem absent_name_ops_fail_witness :
    (ClipboardState.update_register_content ⟨[("b", ⟨"y", "s2"⟩)]⟩ "a" "c"
        none WriteResult.success = (false, ⟨[("b", ⟨"y", "s2"⟩)]⟩, none)) ∧
    (ClipboardState.update_shortcut ⟨[("b", ⟨"y", "s2"⟩)]⟩ "a" "s" none
        WriteResult.success = (false, ⟨[("b", ⟨"y", "s2"⟩)]⟩, none)) ∧
    (ClipboardState.remove_register ⟨[("b", ⟨"y", "s2"⟩)]⟩ "a" none
        WriteResult.success = (false, ⟨[("b", ⟨"y", "s2"⟩)]⟩, none)) ∧
    (∀ (t : ClipboardState) (d2 w2 d3 w3),
      (t.remove_register "a" d2 w2).1 = true →
      ((t.remove_register "a" d2 w2).2.1.remove_register "a" d3 w3).1 =
        false) :=
  absent_name_ops_fail ⟨[("b", ⟨"y", "s2"⟩)]⟩ "a" "c" "s" none
    WriteResult.success (by decide)

/-- C6: for each mutating operation, the boolean result and the resulting
in-memory store do not depend on the disk state or on whether the disk
write succeeds. -/
theorem mutation_independent_of_persistence (s : ClipboardState)
    (name content shortcut : String) (d1 : Disk) (w1 : WriteResult)
    (d2 : Disk) (w2 : WriteResult) :
    ((s.add_register name shortcut d1 w1).1 =
        (s.add_register name shortcut d2 w2).1 ∧
      (s.add_register name shortcut d1 w1).2.1 =
        (s.add_register name shortcut d2 w2).2.1) ∧
    ((s.update_register_content name content d1 w1).1 =
        (s.update_register_content name content d2 w2).1 ∧
      (s.update_register_content name content d1 w1).2.1 =
        (s.update_register_content name content d2 w2).2.1) ∧
    ((s.update_shortcut name shortcut d1 w1).1 =
        (s.update_shortcut name shortcut d2 w2).1 ∧
      (s.update_shortcut name shortcut d1 w1).2.1 =
        (s.update_shortcut name shortcut d2 w2).2.1) ∧
    ((s.remove_register name d1 w1).1 = (s.remove_register name d2 w2).1 ∧
      (s.remove_register name d1 w1).2.1 =
        (s.remove_register name d2 w2).2.1) := by
  refine ⟨⟨?_, ?_⟩, ⟨?_, ?_⟩, ⟨?_, ?_⟩, ⟨?_, ?_⟩⟩ <;>
    first
    | (by_cases h : hmContains s.registers name = true <;>
        simp [ClipboardState.add_register, ClipboardState.remove_register,
          hmContains, h] at * <;> simp [h])
    | (cases h : hmGet s.registers name <;>
        simp [ClipboardState.update_register_content,
          ClipboardState.update_shortcut, ClipboardState.remove_register,
          hmContains, h])

/-- C10: a failing `fs::read_to_string` of any kind (absence, permission
denied, anything else) makes `load_from_disk` return a fresh empty store
rather than an error. -/
theorem load_read_error_gives_empty (e : IoError) :
    ClipboardState.load_from_disk (.err e) = .ok ClipboardState.new := rfl

/-- C5: a missing persisted file makes `load_from_disk` return a fresh
empty store without error; an existing file whose contents fail to parse
makes it return an error carrying a description, and the
`ClipboardManager` constructor then falls back to an empty store. -/
theorem load_missing_and_parse_failure :
    ClipboardState.load_from_disk (.err .notFound) =
      .ok ClipboardState.new ∧
    (∀ (c : FileContents) (e : String), serde_from_str c = .error e →
      ClipboardState.load_from_disk (.ok c) =
        .error ("Failed to parse config: " ++ e) ∧
      ClipboardManager.new (.ok c) = ClipboardState.new) := by
  refine ⟨rfl, ?_⟩
  intro c e h
  constructor
  · simp [ClipboardState.load_from_disk, h]
  · simp [ClipboardManager.new, ClipboardState.load_from_disk, h]

/-- C5 witness: a concrete malformed file. -/
theorem load_missing_and_parse_failure_witness :
    ClipboardState.load_from_disk (.ok (Except.error "bad json")) =
      .error ("Failed to parse config: " ++ "bad json") ∧
    ClipboardManager.new (.ok (Except.error "bad json")) =
      ClipboardState.new :=
  load_missing_and_parse_failure.2 (Except.error "bad json") "bad json" rfl

/-- C9: at the FFI boundary, a register whose content holds an interior
NUL character makes `clipboard_manager_get_register_content` return the
null pointer even though the register exists, exactly as an absent name
does. -/
theorem get_content_nul_gives_null (s : ClipboardState)
    (name content : String)
    (hget : ClipboardManager.get_register_content s name = some content)
    (hnul : Char.ofNat 0 ∈ content.data) :
    clipboard_manager_get_register_content s name = none ∧
    (∀ (t : ClipboardState) (m : String),
      ClipboardManager.get_register_content t m = none →
      clipboard_manager_get_register_content t m = none) := by
  constructor
  · have hany : content.data.any (fun c => c.toNat == 0) = true := by
      apply List.any_eq_true.mpr
      exact ⟨Char.ofNat 0, hnul, by decide⟩
    simp [clipboard_manager_get_register_content, hget, cstring_new, hany]
  · intro t m hm
    simp [clipboard_manager_get_register_content, hm]

/-- C9 witness: a concrete register whose content is a single NUL
character. -/
theorem get_content_nul_gives_null_witness :
    clipboard_manager_get_register_content
      ⟨[("a", ⟨String.mk [Char.ofNat 0], "s1"⟩)]⟩ "a" = none ∧
    (∀ (t : ClipboardState) (m : String),
      ClipboardManager.get_register_content t m = none →
      clipboard_manager_get_register_content t m = none) :=
  get_content_nul_gives_null ⟨[("a", ⟨String.mk [Char.ofNat 0], "s1"⟩)]⟩
    "a" (String.mk [Char.ofNat 0]) (by decide) (by decide)

/-! Helper lemmas for the map invariant through deserialization. -/

theorem parseRegEntries_nodup (fields : List (String × Json))
    (acc out : List (String × ClipboardRegister))
    (hacc : (acc.map Prod.fst).Nodup)
    (h : parseRegEntries fields acc = .ok out) :
    (out.map Prod.fst).Nodup := by
  induction fields generalizing acc with
  | nil =>
    simp only [parseRegEntries, Except.ok.injEq] at h
    exact h ▸ hacc
  | cons p rest ih =>
    rcases p with ⟨k, v⟩
    simp only [parseRegEntries] at h
    cases hr : ClipboardRegister.fromJson v with
    | ok r =>
      rw [hr] at h
      exact ih (hmInsert acc k r) (hmInsert_nodup acc k r hacc) h
    | error e =>
      rw [hr] at h
      exact absurd h (by simp)

theorem stateFromFields_nodup (fields : List (String × Json))
    (acc : Option (List (String × ClipboardRegister))) (s : ClipboardState)
    (hacc : ∀ regs, acc = some regs → (regs.map Prod.fst).Nodup)
    (h : stateFromFields fields acc = .ok s) : NodupKeys s := by
  induction fields generalizing acc with
  | nil =>
    cases acc with
    | none => exact absurd h (by simp [stateFromFields])
    | some regs =>
      simp only [stateFromFields, Except.ok.injEq] at h
      have := hacc regs rfl
      rw [← h]
      exact this
  | cons p rest ih =>
    rcases p with ⟨k, v⟩
    simp only [stateFromFields] at h
    by_cases hk : k == "registers"
    · rw [if_pos hk] at h
      cases acc with
      | some _ => exact absurd h (by simp)
      | none =>
        cases hm : parseRegMap v with
        | ok regs =>
          rw [hm] at h
          refine ih (some regs) ?_ h
          intro regs2 h2
          cases h2
          cases v with
          | obj entries =>
            simp only [parseRegMap] at hm
            exact parseRegEntries_nodup entries [] regs (by simp) hm
          | null => exact absurd hm (by simp [parseRegMap])
          | bool b => exact absurd hm (by simp [parseRegMap])
          | num n => exact absurd hm (by simp [parseRegMap])
          | str s2 => exact absurd hm (by simp [parseRegMap])
          | arr es => exact absurd hm (by simp [parseRegMap])
        | error e =>
          rw [hm] at h
          exact absurd h (by simp)
    · rw [if_neg hk] at h
      exact ih acc hacc h

theorem load_from_disk_nodup (r : ReadResult) (s : ClipboardState)
    (h : ClipboardState.load_from_disk r = .ok s) : NodupKeys s := by
  cases r with
  | err e =>
    simp only [ClipboardState.load_from_disk, Except.ok.injEq] at h
    rw [← h]
    exact List.nodup_nil
  | ok c =>
    simp only [ClipboardState.load_from_disk] at h
    cases hc : serde_from_str c with
    | error e =>
      rw [hc] at h
      exact absurd h (by simp)
    | ok state =>
      rw [hc] at h
      simp only [Except.ok.injEq] at h
      subst h
      cases c with
      | error e => exact absurd hc (by simp [serde_from_str])
      | ok j =>
        simp only [serde_from_str] at hc
        cases j with
        | obj fields =>
          simp only [ClipboardState.fromJson] at hc
          exact stateFromFields_nodup fields none _ (by simp) hc
        | null => exact absurd hc (by simp [ClipboardState.fromJson])
        | bool b => exact absurd hc (by simp [ClipboardState.fromJson])
        | num n => exact absurd hc (by simp [ClipboardState.fromJson])
        | str s2 => exact absurd hc (by simp [ClipboardState.fromJson])
        | arr es => exact absurd hc (by simp [ClipboardState.fromJson])

/-- C8: the at-most-one-register-per-name invariant holds for a fresh
store and for any successfully loaded store, and is preserved by add,
update_content, update_shortcut and remove. -/
theorem nodup_invariant_preserved :
    NodupKeys ClipboardState.new ∧
    (∀ (r : ReadResult) (s : ClipboardState),
      ClipboardState.load_from_disk r = .ok s → NodupKeys s) ∧
    (∀ (s : ClipboardState) (n sc : String) (d : Disk) (w : WriteResult),
      NodupKeys s → NodupKeys (s.add_register n sc d w).2.1) ∧
    (∀ (s : ClipboardState) (n c : String) (d : Disk) (w : WriteResult),
      NodupKeys s → NodupKeys (s.update_register_content n c d w).2.1) ∧
    (∀ (s : ClipboardState) (n sc : String) (d : Disk) (w : WriteResult),
      NodupKeys s → NodupKeys (s.update_shortcut n sc d w).2.1) ∧
    (∀ (s : ClipboardState) (n : String) (d : Disk) (w : WriteResult),
      NodupKeys s → NodupKeys (s.remove_register n d w).2.1) := by
  refine ⟨List.nodup_nil, load_from_disk_nodup, ?_, ?_, ?_, ?_⟩
  · intro s n sc d w hs
    by_cases h : hmContains s.registers n
    · simpa [ClipboardState.add_register, h] using hs
    · simp only [ClipboardState.add_register, h, if_false, Bool.false_eq_true]
      exact hmInsert_nodup s.registers n ⟨"", sc⟩ hs
  · intro s n c d w hs
    cases h : hmGet s.registers n with
    | none => simpa [ClipboardState.update_register_content, h] using hs
    | some reg =>
      simp only [ClipboardState.update_register_content, h]
      show ((hmSet s.registers n ⟨c, reg.shortcut⟩).map Prod.fst).Nodup
      rw [hmSet_map_fst]
      exact hs
  · intro s n sc d w hs
    cases h : hmGet s.registers n with
    | none => simpa [ClipboardState.update_shortcut, h] using hs
    | some reg =>
      simp only [ClipboardState.update_shortcut, h]
      show ((hmSet s.registers n ⟨reg.content, sc⟩).map Prod.fst).Nodup
      rw [hmSet_map_fst]
      exact hs
  · intro s n d w hs
    by_cases h : (hmGet s.registers n).isSome
    · simp only [ClipboardState.remove_register, h, if_true]
      exact nodup_keys_filter s.registers _ hs
    · simpa [ClipboardState.remove_register, h] using hs

/-- C8 witness: the invariant for a concrete add on the fresh store. -/
theorem nodup_invariant_preserved_witness :
    NodupKeys ((ClipboardState.new.add_register "a" "s1" none
      WriteResult.success).2.1) :=
  nodup_invariant_preserved.2.2.1 ClipboardState.new "a" "s1" none
    WriteResult.success nodup_invariant_preserved.1

/-! Helper lemmas: the rendered JSON text never contains a NUL character,
so `CString::new` on it always succeeds. -/

/-- Whether a string contains a NUL character (what `CString::new` tests). -/
def hasNul (s : String) : Bool :=
  s.data.any (fun c => c.toNat == 0)

theorem string_data_append (a b : String) :
    (a ++ b).data = a.data ++ b.data := by
  cases a
  cases b
  rfl

theorem hasNul_append (a b : String) :
    hasNul (a ++ b) = (hasNul a || hasNul b) := by
  unfold hasNul
  rw [string_data_append]
  exact List.any_append

theorem hasNul_singleton (c : Char) :
    hasNul (String.singleton c) = (c.toNat == 0) := by
  simp [hasNul, String.singleton]

theorem hexDigit_toNat_ne_zero : ∀ n, n < 16 → ¬ (hexDigit n).toNat = 0 := by
  unfold hexDigit
  decide

theorem hasNul_escapeChar (c : Char) : hasNul (escapeChar c) = false := by
  unfold escapeChar
  split
  · decide
  split
  · decide
  split
  · split
    · decide
    split
    · decide
    split
    · decide
    split
    · decide
    split
    · decide
    next h32 _ _ _ _ _ _ =>
      rw [hasNul_append, hasNul_append, hasNul_singleton, hasNul_singleton]
      have h1 : ¬ (hexDigit (c.toNat / 16)).toNat = 0 :=
        hexDigit_toNat_ne_zero _ (by omega)
      have h2 : ¬ (hexDigit (c.toNat % 16)).toNat = 0 :=
        hexDigit_toNat_ne_zero _ (Nat.mod_lt _ (by norm_num))
      simp only [beq_eq_false_iff_ne, ne_eq, Bool.or_eq_false_iff]
      exact ⟨⟨by decide, h1⟩, h2⟩
  next h32 _ _ =>
    rw [hasNul_singleton]
    simp only [beq_eq_false_iff_ne, ne_eq]
    omega

theorem hasNul_escapeChars (cs : List Char) :
    hasNul (escapeChars cs) = false := by
  induction cs with
  | nil => decide
  | cons c rest ih =>
    rw [escapeChars, hasNul_append, hasNul_escapeChar, ih]
    rfl

theorem hasNul_escapeString (s : String) :
    hasNul (escapeString s) = false := by
  rw [escapeString, hasNul_append, hasNul_append, hasNul_escapeChars]
  decide

theorem hasNul_renderPair (p : String × ClipboardRegister) :
    hasNul (renderPair p) = false := by
  rw [renderPair]
  repeat rw [hasNul_append]
  repeat rw [hasNul_escapeString]
  decide

theorem hasNul_renderPairList (l : List (String × ClipboardRegister)) :
    hasNul (renderPairList l) = false := by
  induction l with
  | nil => decide
  | cons p rest ih =>
    cases rest with
    | nil => rw [renderPairList, hasNul_renderPair]
    | cons q rs =>
      rw [renderPairList, hasNul_append, hasNul_append, hasNul_renderPair,
        ih]
      decide

theorem hasNul_renderPairs (l : List (String × ClipboardRegister)) :
    hasNul (renderPairs l) = false := by
  rw [renderPairs, hasNul_append, hasNul_append, hasNul_renderPairList]
  decide

/-- C7: the FFI list-all entry point never returns the null pointer: the
JSON text it builds never contains an interior NUL byte, so the
`CString::new` conversion always succeeds and the returned handle holds
exactly the adapter's JSON string ("[]" in the serialization-failure
branch). -/
theorem get_all_registers_never_null (s : ClipboardState) :
    clipboard_manager_get_all_registers s =
      some (ClipboardManager.get_all_registers s) := by
  have h : hasNul (ClipboardManager.get_all_registers s) = false := by
    show hasNul (renderPairs s.registers) = false
    exact hasNul_renderPairs s.registers
  unfold hasNul at h
  simp [clipboard_manager_get_all_registers, cstring_new, h]

/-! Helper lemmas for the serialization round trip. -/

theorem reg_roundtrip (r : ClipboardRegister) :
    ClipboardRegister.fromJson r.toJson = .ok r := rfl

theorem hmInsert_fresh {α : Type} (m : List (String × α)) (k : String)
    (v : α) (h : k ∉ m.map Prod.fst) : hmInsert m k v = (k, v) :: m := by
  rw [hmInsert, hmFilter_eq_of_not_mem m k h]

theorem parseRegEntries_roundtrip (l : List (String × ClipboardRegister))
    (acc : List (String × ClipboardRegister))
    (hnd : (l.map Prod.fst).Nodup)
    (hfresh : ∀ k ∈ l.map Prod.fst, k ∉ acc.map Prod.fst) :
    parseRegEntries (l.map (fun p => (p.1, p.2.toJson))) acc =
      .ok (l.reverse ++ acc) := by
  induction l generalizing acc with
  | nil => simp [parseRegEntries]
  | cons p tl ih =>
    rcases p with ⟨k, r⟩
    simp only [List.map_cons, parseRegEntries, reg_roundtrip]
    rw [hmInsert_fresh acc k r (hfresh k (by simp))]
    simp only [List.map_cons, List.nodup_cons] at hnd
    rw [ih ((k, r) :: acc) hnd.2 ?_]
    · simp
    · intro k2 hk2
      simp only [List.map_cons, List.mem_cons]
      rintro (hk | hk)
      · exact hnd.1 (hk ▸ hk2)
      · exact hfresh k2 (List.mem_cons_of_mem _ hk2) hk

/-- C4: saving a store (with the write succeeding) records exactly its
serialized form on disk, and loading that back (with the read succeeding)
yields a store holding the same registers — same names, contents and
shortcuts, up to the hash map's unspecified order. -/
theorem save_load_roundtrip (s : ClipboardState) (d : Disk)
    (h : NodupKeys s) :
    (s.save_to_disk d .success).1 = .ok () ∧
    (s.save_to_disk d .success).2 = some (Except.ok s.toJson) ∧
    ClipboardState.load_from_disk (.ok (Except.ok s.toJson)) =
      .ok ⟨s.registers.reverse⟩ ∧
    s.registers.reverse.Perm s.registers := by
  refine ⟨rfl, rfl, ?_, List.reverse_perm s.registers⟩
  have hp := parseRegEntries_roundtrip s.registers [] h (by simp)
  have hserde : serde_from_str (Except.ok s.toJson) =
      .ok ⟨s.registers.reverse⟩ := by
    simp only [serde_from_str, ClipboardState.toJson,
      ClipboardState.fromJson, stateFromFields, parseRegMap]
    rw [hp]
    simp [stateFromFields]
  simp [ClipboardState.load_from_disk, hserde]

/-- C4 witness: a concrete two-register store. -/
theorem save_load_roundtrip_witness :
    ((⟨[("a", ⟨"x", "s1"⟩), ("b", ⟨"y", "s2"⟩)]⟩ :
        ClipboardState).save_to_disk none .success).1 = .ok () ∧
    ((⟨[("a", ⟨"x", "s1"⟩), ("b", ⟨"y", "s2"⟩)]⟩ :
        ClipboardState).save_to_disk none .success).2 =
      some (Except.ok (ClipboardState.toJson
        ⟨[("a", ⟨"x", "s1"⟩), ("b", ⟨"y", "s2"⟩)]⟩)) ∧
    ClipboardState.load_from_disk (.ok (Except.ok (ClipboardState.toJson
        ⟨[("a", ⟨"x", "s1"⟩), ("b", ⟨"y", "s2"⟩)]⟩))) =
      .ok ⟨[("a", ⟨"x", "s1"⟩), ("b", ⟨"y", "s2"⟩)].reverse⟩ ∧
    List.Perm [("a", (⟨"x", "s1"⟩ : ClipboardRegister)),
        ("b", ⟨"y", "s2"⟩)].reverse
      [("a", ⟨"x", "s1"⟩), ("b", ⟨"y", "s2"⟩)] :=
  save_load_roundtrip ⟨[("a", ⟨"x", "s1"⟩), ("b", ⟨"y", "s2"⟩)]⟩ none
    (by unfold NodupKeys; decide)
